import Mathlib

/-!
# Verification of the `padsley/analyzer` event-correlation core

This file gives a shallow embedding of the parts of the repository that the
claims concern, and proves (or refutes) each claim against it.

Embedded source files:
* `src/utils/TStamp.cxx` — the timestamp coincidence queue
  (`tstamp::Queue::Push/Pop/Flush/FillDiagnostics`, `tstamp::Diagnostics`);
* `src/Modules.cxx` — the VME module records (`dragon::gamma::Modules`,
  `dragon::hion::Modules`);
* `src/rootana/Events.cxx` — the event dispatcher
  (`rootana::EventHandler::Process`);
* `src/Dragon.hxx` — the `dragon::Scaler` record shape.

Parts of the repository referenced by this code but absent from the sources
(`utils/TStamp.hxx`, `midas/Event.hxx`, `utils/definitions.h`, `vme/*`,
`Scaler.cxx`) are modelled from the specification; each such definition is
marked `Modelled from the spec:` in its doc comment.

Modelling conventions:
* the `std::multiset<midas::Event>` buffer is represented by the list of its
  elements in container (in-order) traversal order; `insert` places a new
  element at the upper bound of its equivalence class (the C++11 guarantee),
  `equal_range(*begin)` is the maximal prefix of elements equivalent to the
  first one;
* 64-bit trigger-time tick counts are `Nat` (no claim involves wrap-around);
* the singles/coincidence callbacks (`HandleSingle`/`HandleCoinc`) and the
  flush-timeout warning are recorded in an output trace (`Out`);
* wall-clock time in `Flush` is an oracle `clock : Nat → Int` giving the
  elapsed whole seconds (`difftime(time(0), t_begin)`) observed at the n-th
  loop iteration;
* the allocation-failure path of `Push` (a `std::multiset::insert` throw) is
  outside the embedding: no claim concerns it.
-/

namespace Analyzer

/-- The queue's view of a `midas::Event`: its MIDAS event id
(`GetEventId()`) and its FPGA trigger time in clock ticks
(the field the timestamp comparison reads). -/
structure Event where
  eid : Nat
  t   : Nat
deriving DecidableEq, Repr

/-- Modelled from the spec: the strict ordering on events used by the
`std::multiset` comparator (defined in the missing `midas/Event.hxx`).
Per the spec, two events are *coincident* iff their trigger times differ by
at most the coincidence window `W`, and the buffer is ordered by trigger
time with coincident events equivalent: `a` sorts strictly before `b` iff
they are not coincident and `a.t < b.t`, i.e. iff `a.t + W < b.t`. -/
def ltW (W : Nat) (a b : Event) : Bool :=
  a.t + W < b.t

/-- `std::multiset::insert`: the new element is placed at the upper bound of
its equivalence class, i.e. after every element it is not strictly less
than. -/
def qinsert (W : Nat) (e : Event) (l : List Event) : List Event :=
  l.takeWhile (fun x => ! ltW W e x) ++ e :: l.dropWhile (fun x => ! ltW W e x)

/-- Observable actions of the queue: the `HandleSingle` callback, the
`HandleCoinc` callback, and the `FlushTimeoutMessage` warning. -/
inductive Out where
  | single (e : Event)
  | coinc (e1 e2 : Event)
  | timeout
deriving DecidableEq, Repr

/-- Result of `tstamp::Queue::Pop`: the two out-parameters, the emitted
callback trace, and the buffer afterwards. -/
structure PopResult where
  singlesId  : Int
  foundCoinc : Bool
  outs       : List Out
  state      : List Event
deriving DecidableEq, Repr

/-- `tstamp::Queue::Pop` (TStamp.cxx:109-139).  On an empty queue it sets
`singles_id = -1`, `found_coinc = false` and returns.  Otherwise it takes
`equal_range(*fEvents.begin())` — the maximal prefix of the buffer
equivalent to the earliest event — calls `HandleCoinc` on the earliest
event paired with every match other than the `begin` iterator itself,
then calls `HandleSingle` on the earliest event and erases it. -/
def pop (W : Nat) : List Event → PopResult
  | [] => ⟨-1, false, [], []⟩
  | e :: rest =>
    let eqRange := (e :: rest).takeWhile (fun x => ! ltW W e x)
    let coincs := eqRange.drop 1
    ⟨(e.eid : Int), !coincs.isEmpty,
      coincs.map (fun x => Out.coinc e x) ++ [Out.single e], rest⟩

/-- Largest trigger time in the buffer (0 when empty). -/
def maxT : List Event → Nat
  | [] => 0
  | e :: r => (r.map Event.t).foldl max e.t

/-- Smallest trigger time in the buffer (0 when empty). -/
def minT : List Event → Nat
  | [] => 0
  | e :: r => (r.map Event.t).foldl min e.t

/-- Buffered time span `max_time − min_time`. -/
def spanOf (l : List Event) : Nat := maxT l - minT l

/-- Modelled from the spec: `tstamp::Queue::IsFull` (declared in the missing
`utils/TStamp.hxx`).  Per the spec's draining rule, the queue is "full" when
the buffered time span `max_time − min_time` exceeds the maximum buffered
time span `T`. -/
def isFull (T : Nat) (l : List Event) : Bool := T < spanOf l

/-- Result of `tstamp::Queue::Push`: the diagnostics quantities gathered
during the push, the emitted callback trace, and the buffer afterwards. -/
structure PushResult where
  singlesId  : Int
  foundCoinc : Bool
  tdiff      : Int
  outs       : List Out
  state      : List Event
deriving DecidableEq, Repr

/-- `tstamp::Queue::Push` (TStamp.cxx:49-106).  Inserts the event, computes
`event.TimeDiff(*fEvents.begin())` (modelled from the spec as the signed
tick difference between the incoming event and the oldest buffered one),
and then — `if (IsFull()) Pop(...)` — performs a single `Pop` when the
buffered span exceeds the maximum. -/
def push (W T : Nat) (ev : Event) (l : List Event) : PushResult :=
  let l' := qinsert W ev l
  let tdiff : Int := (ev.t : Int) - (((l'.head?).map Event.t).getD 0 : Nat)
  if isFull T l' then
    let p := pop W l'
    ⟨p.singlesId, p.foundCoinc, tdiff, p.outs, p.state⟩
  else
    ⟨-1, false, tdiff, [], l'⟩

/-- The `while (!fEvents.empty())` loop of `tstamp::Queue::Flush`
(TStamp.cxx:141-169), with fuel bounding the number of iterations (each
iteration either pops one event or clears the queue, so `l.length + 1`
fuel always suffices).  Iteration `i` checks
`max_time > 0 && difftime(time(0), t_begin) < max_time`; if it holds it
pops once, otherwise it emits the `FlushTimeoutMessage` warning and clears
the queue. -/
def flushLoop (W : Nat) (maxTime : Int) (clock : Nat → Int) :
    Nat → List Event → Nat → List Out × List Event
  | 0, l, _ => ([], l)
  | _ + 1, [], _ => ([], [])
  | fuel + 1, e :: rest, i =>
    if maxTime > 0 ∧ clock i < maxTime then
      let p := pop W (e :: rest)
      let r := flushLoop W maxTime clock fuel p.state (i + 1)
      (p.outs ++ r.1, r.2)
    else
      ([Out.timeout], [])

/-- `tstamp::Queue::Flush` (TStamp.cxx:141-169). -/
def flush (W : Nat) (maxTime : Int) (clock : Nat → Int) (l : List Event) :
    List Out × List Event :=
  flushLoop W maxTime clock (l.length + 1) l 0

/-- The buffer obtained by `Push`ing a sequence of events into an initially
empty queue. -/
def buildQueue (W T : Nat) (evs : List Event) : List Event :=
  evs.foldl (fun l e => (push W T e l).state) []

/-- Trigger times of the events handled as singles, in emission order. -/
def singlesTimes (outs : List Out) : List Nat :=
  outs.filterMap (fun o => match o with
    | Out.single e => some e.t
    | _ => none)

/-! ## `tstamp::Diagnostics` and `tstamp::Queue::FillDiagnostics` -/

/-- `tstamp::Diagnostics` (declared in the missing `utils/TStamp.hxx`;
fields taken from the uses in TStamp.cxx): queue size, cumulative
coincidence count, last time delta and the bounded per-source-id singles
counter array `n_singles[MAX_TYPES]`.  The (unknown) constant
`Diagnostics::MAX_TYPES` is a parameter of the operations below. -/
structure Diagnostics where
  size      : Nat
  n_coinc   : Nat
  time_diff : Int
  n_singles : List Nat
deriving DecidableEq, Repr

/-- `tstamp::Queue::FillDiagnostics` (TStamp.cxx:184-198).  `maxTypes` is
`Diagnostics::MAX_TYPES` and `qsize` the current queue size (`Size()`).
Returns the updated record and whether the out-of-range warning was
printed.  `n_singles[singles_id] += 1` happens exactly under
`singles_id >= 0 && singles_id < Diagnostics::MAX_TYPES`; otherwise, under
`singles_id > 0`, only a warning is issued. -/
def fillDiagnostics (maxTypes : Nat) (qsize : Nat) (d : Diagnostics)
    (tdiff : Int) (haveCoinc : Bool) (singlesId : Int) : Diagnostics × Bool :=
  let d1 := { d with size := qsize, time_diff := tdiff }
  let d2 := if haveCoinc then { d1 with n_coinc := d1.n_coinc + 1 } else d1
  if 0 ≤ singlesId ∧ singlesId < (maxTypes : Int) then
    ({ d2 with n_singles :=
        (d2.n_singles.set singlesId.toNat
          (d2.n_singles.getD singlesId.toNat 0 + 1)) }, false)
  else if 0 < singlesId then
    (d2, true)
  else
    (d2, false)

/-! ## `midas::Event` payload view, VME modules, scalers, event dispatcher -/

/-- The decoder's view of a `midas::Event`: event id plus the recognized
banks.  The bank payloads are modelled from the spec (`midas/Event.hxx`
and the bank reader are not among the sources): an absent tag is `none`.
`vadc`/`adc0` are the two accepted head ADC tags, `vtdc`/`tdc0` the two
accepted head TDC tags (lists of (channel, leading-edge time) records),
`sclr` the 17 scaler counts and `schd` the scaler period. -/
structure MidasEvent where
  eid  : Nat
  vadc : Option (List Int)
  adc0 : Option (List Int)
  vtdc : Option (List (Nat × Int))
  tdc0 : Option (List (Nat × Int))
  sclr : List Nat
  schd : Nat
deriving DecidableEq, Repr

/-- Modelled from the spec: the raw "no data" sentinel (an out-of-band
value below any physical range; `vme::NONE` in the source). -/
def NONE : Int := -1

/-- CAEN V792/V785 ADC record: 32 raw channel samples
(`vme/V792.hxx` is not among the sources; shape from `Modules.cxx` and the
spec's ADC module record). -/
structure V792 where
  data : List Int
deriving DecidableEq, Repr

/-- CAEN V1190b TDC record: 64 channels of first-hit leading-edge times
(`vme/V1190.hxx` is not among the sources; shape from `Modules.cxx` and the
spec's TDC module record). -/
structure V1190 where
  data : List Int
deriving DecidableEq, Repr

/-- IO32 FPGA header record, holding the trigger timestamp
(`vme/IO32.hxx` is not among the sources; shape from `Modules.cxx`). -/
structure IO32 where
  tstamp : Int
deriving DecidableEq, Repr

/-- Modelled from the spec: `vme::reset` on an ADC — every channel to the
raw sentinel. -/
def resetAdc : V792 := ⟨List.replicate 32 NONE⟩

/-- Modelled from the spec: `vme::reset` on the 64-channel TDC — every
channel to the raw sentinel. -/
def resetTdc : V1190 := ⟨List.replicate 64 NONE⟩

/-- Modelled from the spec: `vme::caen::unpack_adc` — if the bank is
present, every one of the 32 channels is written (absent channels to the
raw sentinel); if the tag is not found the module is left as-is. -/
def unpack_adc (bank : Option (List Int)) (m : V792) : V792 :=
  match bank with
  | some d => ⟨(List.range 32).map (fun i => d.getD i NONE)⟩
  | none => m

/-- Modelled from the spec: one TDC hit record — the first record of a
matching channel populates that channel's leading-edge time; subsequent
records for the same channel are discarded. -/
def tdcHit (m : V1190) (rec : Nat × Int) : V1190 :=
  if rec.1 < 64 ∧ m.data.getD rec.1 NONE = NONE then
    ⟨m.data.set rec.1 rec.2⟩
  else m

/-- Modelled from the spec: `vme::caen::unpack_v1190` — fold the bank's
hit records into the module; absent tag leaves the module as-is. -/
def unpack_v1190 (bank : Option (List (Nat × Int))) (m : V1190) : V1190 :=
  match bank with
  | some recs => recs.foldl tdcHit m
  | none => m

/-- `dragon::gamma::Modules` (Modules.cxx:9-66): head-side V792 ADC,
V1190b TDC and IO32 FPGA header. -/
structure GammaModules where
  v792   : V792
  v1190b : V1190
  io32   : IO32
deriving DecidableEq, Repr

/-- `dragon::gamma::Modules::reset` (Modules.cxx:32-36): resets the ADC and
the TDC; the IO32 record is not touched. -/
def GammaModules.reset (m : GammaModules) : GammaModules :=
  { m with v792 := resetAdc, v1190b := resetTdc }

/-- `dragon::gamma::Modules::unpack` (Modules.cxx:38-45): unpacks the ADC
from tag "VADC" then "ADC0", and the TDC from tag "VTDC" then "TDC0"; the
IO32 unpack line is commented out in the source. -/
def GammaModules.unpack (m : GammaModules) (e : MidasEvent) : GammaModules :=
  { m with
    v792 := unpack_adc e.adc0 (unpack_adc e.vadc m.v792),
    v1190b := unpack_v1190 e.tdc0 (unpack_v1190 e.vtdc m.v1190b) }

/-- `dragon::hion::Modules` (Modules.cxx:69-133): tail-side V785 ADC pair,
V1190b TDC and IO32 FPGA header. -/
structure HionModules where
  v785_0 : V792
  v785_1 : V792
  v1190b : V1190
  io32   : IO32
deriving DecidableEq, Repr

/-- `dragon::hion::Modules::reset` (Modules.cxx:83-89): resets both V785s
and the TDC; the IO32 record is not touched. -/
def HionModules.reset (m : HionModules) : HionModules :=
  { m with v785_0 := resetAdc, v785_1 := resetAdc, v1190b := resetTdc }

/-- `dragon::hion::Modules::unpack` (Modules.cxx:101-111): the entire body
(the two V785 unpacks, the V1190b unpack and the IO32 unpack) is commented
out in the source, so the function changes nothing. -/
def HionModules.unpack (m : HionModules) (_e : MidasEvent) : HionModules :=
  m

/-- `dragon::hion::Modules::tstamp` (Modules.cxx:130-133). -/
def HionModules.tstamp (m : HionModules) : Int :=
  m.io32.tstamp

/-- `dragon::Scaler` data members (Dragon.hxx:656-711): per-period counts,
running sums and rates over `MAX_CHANNELS = 17` channels; the 32-bit
counters are kept modulo `2^32`. -/
structure Scaler where
  count : List Nat
  sum   : List Nat
  rate  : List ℚ
deriving DecidableEq, Repr

/-- `dragon::Scaler::MAX_CHANNELS` (Dragon.hxx:659). -/
def scalerMaxChannels : Nat := 17

/-- `dragon::Scaler::reset` — all data to zero (doc comment in
Dragon.hxx; `Scaler.cxx` is not among the sources). -/
def Scaler.reset (_s : Scaler) : Scaler :=
  ⟨List.replicate scalerMaxChannels 0,
   List.replicate scalerMaxChannels 0,
   List.replicate scalerMaxChannels 0⟩

/-- Modelled from the spec: `dragon::Scaler::unpack` (`Scaler.cxx` is not
among the sources).  On a scaler event, `count[i]` is overwritten with the
current-period increment (bank "SCLR"), `sum[i] += count[i]`, and
`rate[i] = count[i] / period_seconds` where the period comes from the
event's header bank. -/
def Scaler.unpack (s : Scaler) (counts : List Nat) (periodSeconds : ℚ) :
    Scaler :=
  let c := (List.range scalerMaxChannels).map (fun i => counts.getD i 0 % 2 ^ 32)
  { count := c,
    sum := (List.range scalerMaxChannels).map
      (fun i => (s.sum.getD i 0 + c.getD i 0) % 2 ^ 32),
    rate := (List.range scalerMaxChannels).map
      (fun i => (c.getD i 0 : ℚ) / periodSeconds) }

/-- Recognized MIDAS event id for head-singles events.  The numeric values
of the `DRAGON_*` constants are modelled from the spec (§6): the defining
`utils/definitions.h` is not among the sources. -/
def DRAGON_HEAD_EVENT : Nat := 1

/-- Recognized MIDAS event id for head scaler events (modelled from the
spec §6). -/
def DRAGON_HEAD_SCALER : Nat := 2

/-- Recognized MIDAS event id for tail-singles events (modelled from the
spec §6). -/
def DRAGON_TAIL_EVENT : Nat := 3

/-- Recognized MIDAS event id for tail scaler events (modelled from the
spec §6). -/
def DRAGON_TAIL_SCALER : Nat := 4

/-- The mutable state the dispatcher can touch: the head and tail detector
records (`rootana::gHead`, `rootana::gTail`, here at module granularity),
the two scaler accumulators, and the log of histogram-fill batches (by the
event id whose histogram list was filled). -/
structure AnaState where
  head       : GammaModules
  tail       : HionModules
  headScaler : Scaler
  tailScaler : Scaler
  fills      : List Nat
deriving DecidableEq, Repr

/-- The `handle_event` helper of Events.cxx:71-77 on the head record:
`reset()` then `unpack(buf)` (per `Gamma.cxx`, `Gamma::unpack` itself
resets and then unpacks the modules; the further calibration stage lives
in classes not among the sources and is not needed by any claim). -/
def handleGamma (e : MidasEvent) (m : GammaModules) : GammaModules :=
  GammaModules.unpack (GammaModules.reset m) e

/-- The `handle_event` helper of Events.cxx:71-77 on the tail record:
`reset()` then `unpack(buf)` at module granularity. -/
def handleHion (e : MidasEvent) (m : HionModules) : HionModules :=
  HionModules.unpack (HionModules.reset m) e

/-- `rootana::EventHandler::Process(const midas::Event&)`
(Events.cxx:79-105): a switch on the event id.  Head and tail singles
events are handled and their histogram lists filled; the two scaler arms
are `\todo` stubs that do nothing; every other id falls to the default arm,
which silently ignores the event. -/
def process (e : MidasEvent) (s : AnaState) : AnaState :=
  if e.eid = DRAGON_HEAD_EVENT then
    { s with head := handleGamma e s.head, fills := s.fills ++ [e.eid] }
  else if e.eid = DRAGON_TAIL_EVENT then
    { s with tail := handleHion e s.tail, fills := s.fills ++ [e.eid] }
  else if e.eid = DRAGON_HEAD_SCALER then
    s
  else if e.eid = DRAGON_TAIL_SCALER then
    s
  else
    s

/-- A concrete freshly-constructed analyzer state, used to instantiate
frame theorems. -/
def ana0 : AnaState :=
  ⟨⟨resetAdc, resetTdc, ⟨0⟩⟩,
   ⟨resetAdc, resetAdc, resetTdc, ⟨0⟩⟩,
   Scaler.reset ⟨[], [], []⟩,
   Scaler.reset ⟨[], [], []⟩,
   []⟩

/-! ## Helper lemmas about the queue buffer

The buffer invariant: in container order, no event is ever more than `W`
ticks newer than a later one (`leW`).  It is established for every buffer
reachable by `Push`es and is what the emission-ordering results rest on. -/

/-- The pairwise buffer invariant relation: `a` (earlier in container
order) is at most `W` ticks newer than `b` (later in container order). -/
def leW (W : Nat) (a b : Event) : Prop := a.t ≤ b.t + W

theorem pop_state (W : Nat) : ∀ l : List Event, (pop W l).state = l.tail
  | [] => rfl
  | _ :: _ => rfl

theorem qinsert_perm (W : Nat) (e : Event) (l : List Event) :
    List.Perm (qinsert W e l) (e :: l) := by
  unfold qinsert
  have h1 : List.Perm
      (l.takeWhile (fun x => ! ltW W e x) ++ e :: l.dropWhile (fun x => ! ltW W e x))
      (e :: (l.takeWhile (fun x => ! ltW W e x) ++ l.dropWhile (fun x => ! ltW W e x))) :=
    List.perm_middle
  rwa [List.takeWhile_append_dropWhile] at h1

theorem mem_qinsert {W : Nat} {e y : Event} {l : List Event} :
    y ∈ qinsert W e l ↔ y = e ∨ y ∈ l := by
  rw [(qinsert_perm W e l).mem_iff, List.mem_cons]

theorem pairwise_tail {α : Type} {R : α → α → Prop} :
    ∀ {l : List α}, List.Pairwise R l → List.Pairwise R l.tail
  | [], h => h
  | _ :: _, h => (List.pairwise_cons.mp h).2

theorem pairwise_qinsert {W : Nat} (e : Event) :
    ∀ {l : List Event}, List.Pairwise (leW W) l →
      List.Pairwise (leW W) (qinsert W e l)
  | [], _ => by simp [qinsert]
  | x :: l, h => by
    rcases List.pairwise_cons.mp h with ⟨hx, hl⟩
    by_cases hpx : ltW W e x = true
    · have hlt : e.t + W < x.t := by simpa [ltW] using hpx
      have heq : qinsert W e (x :: l) = e :: x :: l := by
        simp [qinsert, hpx]
      rw [heq]
      refine List.pairwise_cons.mpr ⟨?_, h⟩
      intro y hy
      rcases List.mem_cons.mp hy with rfl | hyl
      · unfold leW
        omega
      · have := hx y hyl
        unfold leW at this ⊢
        omega
    · have hle : x.t ≤ e.t + W := by
        have : ¬ (e.t + W < x.t) := by simpa [ltW] using hpx
        omega
      have heq : qinsert W e (x :: l) = x :: qinsert W e l := by
        simp [qinsert, hpx]
      rw [heq]
      refine List.pairwise_cons.mpr ⟨?_, pairwise_qinsert e hl⟩
      intro y hy
      rcases mem_qinsert.mp hy with rfl | hyl
      · exact hle
      · exact hx y hyl

theorem push_state (W T : Nat) (e : Event) (l : List Event) :
    (push W T e l).state =
      if isFull T (qinsert W e l) then (pop W (qinsert W e l)).state
      else qinsert W e l := by
  simp only [push]
  split <;> rfl

theorem pairwise_push {W T : Nat} (e : Event) {l : List Event}
    (h : List.Pairwise (leW W) l) :
    List.Pairwise (leW W) (push W T e l).state := by
  have hq := pairwise_qinsert e h
  rw [push_state]
  split
  · rw [pop_state]
    exact pairwise_tail hq
  · exact hq

theorem pairwise_buildQueue (W T : Nat) (evs : List Event) :
    List.Pairwise (leW W) (buildQueue W T evs) := by
  suffices h : ∀ l, List.Pairwise (leW W) l →
      List.Pairwise (leW W) (evs.foldl (fun l e => (push W T e l).state) l) from
    h [] List.Pairwise.nil
  induction evs with
  | nil => exact fun l hl => hl
  | cons e evs ih => exact fun l hl => ih _ (pairwise_push e hl)

theorem singlesTimes_append (a b : List Out) :
    singlesTimes (a ++ b) = singlesTimes a ++ singlesTimes b := by
  simp [singlesTimes]

theorem singlesTimes_coincs (e : Event) : ∀ l : List Event,
    singlesTimes (l.map (fun x => Out.coinc e x)) = []
  | [] => rfl
  | x :: l => by
    simp [singlesTimes, List.filterMap_cons, singlesTimes_coincs e l]

theorem singlesTimes_pop (W : Nat) (e : Event) (rest : List Event) :
    singlesTimes (pop W (e :: rest)).outs = [e.t] := by
  show singlesTimes
    ((((e :: rest).takeWhile (fun x => ! ltW W e x)).drop 1).map
      (fun x => Out.coinc e x) ++ [Out.single e]) = [e.t]
  rw [singlesTimes_append, singlesTimes_coincs]
  rfl

theorem flushLoop_drain_singles (W : Nat) :
    ∀ (fuel : Nat) (l : List Event) (i : Nat), l.length ≤ fuel →
      singlesTimes (flushLoop W 1 (fun _ => 0) fuel l i).1 = l.map Event.t
  | 0, [], _, _ => rfl
  | 0, _ :: _, _, h => by simp at h
  | _ + 1, [], _, _ => rfl
  | fuel + 1, e :: rest, i, h => by
    rw [flushLoop]
    rw [if_pos (by norm_num : (1 : Int) > 0 ∧ (fun _ => (0 : Int)) i < 1)]
    rw [singlesTimes_append, singlesTimes_pop, pop_state, List.tail_cons]
    have := flushLoop_drain_singles W fuel rest (i + 1) (by simp at h; omega)
    rw [this]
    rfl

theorem drain_singles (W : Nat) (l : List Event) :
    singlesTimes (flush W 1 (fun _ => 0) l).1 = l.map Event.t :=
  flushLoop_drain_singles W (l.length + 1) l 0 (Nat.le_succ _)

theorem ties_before_insert {W : Nat} (e : Event) :
    ∀ {l : List Event}, List.Pairwise (leW W) l →
      ∀ x ∈ l, x.t = e.t → x ∈ l.takeWhile (fun y => ! ltW W e y)
  | [], _, x, hx, _ => absurd hx (List.not_mem_nil x)
  | a :: l, h, x, hx, ht => by
    rcases List.pairwise_cons.mp h with ⟨ha, hl⟩
    have hpa : (! ltW W e a) = true := by
      rcases List.mem_cons.mp hx with rfl | hxl
      · simp only [ltW, Bool.not_eq_true', decide_eq_false_iff_not]
        omega
      · have hax : leW W a x := ha x hxl
        unfold leW at hax
        simp only [ltW, Bool.not_eq_true', decide_eq_false_iff_not]
        omega
    simp only [List.takeWhile_cons, hpa, if_true]
    rcases List.mem_cons.mp hx with rfl | hxl
    · exact List.mem_cons_self _ _
    · exact List.mem_cons_of_mem _ (ties_before_insert e hl x hxl ht)

/-! ## Claim theorems -/

/-- **C8** (confirmed): `Pop` on an empty queue is a no-op at the
interface: it sets `singles_id` to `-1` and `found_coinc` to `false`,
invokes neither callback (empty trace), and leaves the queue unchanged
(still empty). -/
theorem c8_pop_empty_noop (W : Nat) :
    pop W [] = ⟨-1, false, [], []⟩ :=
  rfl

/-- **C1** (code bug): `Flush` with the default `max_time = -1` does not
pop anything.  Whatever the wall clock does, on any non-empty queue the
loop condition `max_time > 0 && difftime(...) < max_time` is false at once,
so `Flush(-1)` emits the timeout warning and discards every buffered event,
handling none — contradicting the function's own documentation ("Default
value (-1) blocks indefinitely until all events are emptied from the
queue") and the claim. -/
theorem c1_flush_default_discards (W : Nat) (clock : Nat → Int)
    (l : List Event) (h : l ≠ []) :
    flush W (-1) clock l = ([Out.timeout], []) := by
  cases l with
  | nil => exact absurd rfl h
  | cons e rest =>
    rw [flush, List.length_cons, flushLoop]
    rw [if_neg (by norm_num)]

/-- Witness for `c1_flush_default_discards` at a concrete one-event
queue. -/
theorem c1_flush_default_discards_witness :
    flush 10 (-1) (fun _ => 0) [⟨1, 100⟩] = ([Out.timeout], []) :=
  c1_flush_default_discards 10 (fun _ => 0) [⟨1, 100⟩] (by simp)

/-- **C2** (code bug): `Push` pops at most once (`if (IsFull()) Pop(...)`,
TStamp.cxx:99), it does not repeat `Pop` until the span is within bounds —
contradicting its own documentation ("calls Pop() until the container size
(time difference) is no longer larger than the maximum").  Concretely, with
`W = 10`, `T = 1000`, pushing events at ticks 0, 999 and 2002 leaves the
buffer after the third `Push` with span `2002 − 999 = 1003 > T`, even
though that `Push` did pop (exactly once, emitting the tick-0 single). -/
theorem c2_push_single_pop_span_exceeds :
    (push 10 1000 ⟨1, 2002⟩
        (push 10 1000 ⟨1, 999⟩ (push 10 1000 ⟨1, 0⟩ []).state).state).outs
      = [Out.single ⟨1, 0⟩] ∧
    spanOf (push 10 1000 ⟨1, 2002⟩
        (push 10 1000 ⟨1, 999⟩ (push 10 1000 ⟨1, 0⟩ []).state).state).state
      = 1003 ∧
    1000 < 1003 := by
  decide

/-- **C3** (counterexample): the coincidence callback *can* be invoked with
two events from the same source.  Pushing two head events (`eid = 1`) at
ticks 100 and 105 with `W = 10` and then popping invokes `HandleCoinc` on
the two head events. -/
theorem c3_counterexample :
    (pop 10 (buildQueue 10 100000 [⟨1, 100⟩, ⟨1, 105⟩])).outs
      = [Out.coinc ⟨1, 100⟩ ⟨1, 105⟩, Out.single ⟨1, 100⟩] ∧
    (⟨1, 100⟩ : Event).eid = (⟨1, 105⟩ : Event).eid := by
  decide

/-- **C3** (amended): `Queue::Pop` performs no source filtering at all: the
coincidence callback is invoked on the earliest event paired with *every*
other event of its equal-range class, whatever the two events' ids — in
particular also for two head events or two tail events within the window.
(Source-id filtering is left entirely to the callback implementation.) -/
theorem c3_amended_no_source_filter (W : Nat) (e x : Event)
    (rest : List Event) (h : x ∈ rest.takeWhile (fun y => ! ltW W e y)) :
    Out.coinc e x ∈ (pop W (e :: rest)).outs := by
  have hpe : (! ltW W e e) = true := by
    simp [ltW]
  show Out.coinc e x ∈
    ((((e :: rest).takeWhile (fun y => ! ltW W e y)).drop 1).map
      (fun y => Out.coinc e y) ++ [Out.single e])
  simp only [List.takeWhile_cons, hpe, if_true, List.drop_succ_cons,
    List.drop_zero]
  exact List.mem_append.mpr (Or.inl (List.mem_map.mpr ⟨x, h, rfl⟩))

/-- Witness for `c3_amended_no_source_filter`: a same-source pair within
the window is reported as a coincidence. -/
theorem c3_amended_no_source_filter_witness :
    Out.coinc ⟨1, 100⟩ ⟨1, 105⟩ ∈ (pop 10 [⟨1, 100⟩, ⟨1, 105⟩]).outs :=
  c3_amended_no_source_filter 10 ⟨1, 100⟩ ⟨1, 105⟩ [⟨1, 105⟩] (by decide)

/-- **C4** (counterexample): `Pop` does *not* pair the earliest event with
every buffered event within `W` of it.  With `W = 10`, pushing events at
ticks 100, 111, 105 leaves the buffer in container order
`[100, 111, 105]` (111 and 105 compare equivalent, so 105 is inserted
after 111); popping then finds `equal_range` = `{100}` alone and emits no
coincidence at all, although the tick-105 event is within `W` of the
earliest (tick-100) event and from the other source. -/
theorem c4_counterexample :
    (pop 10 (buildQueue 10 1000 [⟨1, 100⟩, ⟨3, 111⟩, ⟨3, 105⟩])).outs
      = [Out.single ⟨1, 100⟩] ∧
    (⟨3, 105⟩ : Event) ∈ buildQueue 10 1000 [⟨1, 100⟩, ⟨3, 111⟩, ⟨3, 105⟩] ∧
    minT (buildQueue 10 1000 [⟨1, 100⟩, ⟨3, 111⟩, ⟨3, 105⟩]) = 100 ∧
    (105 : Nat) ≤ 100 + 10 := by
  decide

/-- **C4** (amended): one `Pop` on a non-empty buffer invokes the
coincidence callback once for each event of the *contiguous run*
immediately following the first buffered event `E0` (in container order)
whose trigger time is at most `E0.t + W` — not for every in-window
buffered event — then invokes the singles callback on `E0`, reports
`E0`'s event id and whether any match was found, and removes exactly `E0`
(the run's events remain buffered). -/
theorem c4_amended_pop_contiguous_run (W : Nat) (e : Event)
    (rest : List Event) :
    pop W (e :: rest)
      = ⟨(e.eid : Int),
         !(rest.takeWhile (fun x => decide (x.t ≤ e.t + W))).isEmpty,
         ((rest.takeWhile (fun x => decide (x.t ≤ e.t + W))).map
           (fun x => Out.coinc e x)) ++ [Out.single e],
         rest⟩ := by
  have hpred : (fun x : Event => ! ltW W e x)
      = (fun x : Event => decide (x.t ≤ e.t + W)) := by
    funext x
    show (! decide (e.t + W < x.t)) = decide (x.t ≤ e.t + W)
    rw [← decide_not]
    exact decide_eq_decide.mpr Nat.not_lt
  have hpe : (! ltW W e e) = true := by
    simp [ltW]
  show (⟨(e.eid : Int),
      !((((e :: rest).takeWhile (fun x => ! ltW W e x)).drop 1).isEmpty),
      ((((e :: rest).takeWhile (fun x => ! ltW W e x)).drop 1).map
        (fun x => Out.coinc e x)) ++ [Out.single e], rest⟩ : PopResult) = _
  simp only [List.takeWhile_cons, hpe, if_true, List.drop_succ_cons,
    List.drop_zero]
  rw [hpred]

/-- **C5** (counterexample): the sequence of singles trigger-times emitted
by the queue is *not* always non-decreasing.  With `W = 10`, pushing a
tail event at tick 1005 and then a head event at tick 1000 (within the
window, hence equivalent: kept in insertion order) and popping twice emits
singles at ticks 1005 then 1000 — a decreasing sequence. -/
theorem c5_counterexample :
    singlesTimes
        ((pop 10 (buildQueue 10 100000 [⟨3, 1005⟩, ⟨1, 1000⟩])).outs
          ++ (pop 10
              (pop 10 (buildQueue 10 100000 [⟨3, 1005⟩, ⟨1, 1000⟩])).state).outs)
      = [1005, 1000] ∧
    ¬ (1005 : Nat) ≤ 1000 := by
  decide

/-- **C5** (amended): emission is monotone only up to the coincidence
window.  Every buffer reachable by `Push`es from empty satisfies the
pairwise invariant `leW W` (an earlier-stored event is at most `W` ticks
newer than any later-stored one); draining such a buffer (repeated `Pop`s
with no intervening `Push`) emits exactly the buffered events in container
order as singles, so consecutive singles trigger-times can decrease, but
never by more than `W`; and an event with a trigger time *equal* to that
of a newly inserted event always precedes it in container order (stable
insertion-order ties). -/
theorem c5_amended_monotone_up_to_window (W T : Nat) (evs : List Event) :
    List.Pairwise (leW W) (buildQueue W T evs) ∧
    singlesTimes (flush W 1 (fun _ => 0) (buildQueue W T evs)).1
      = (buildQueue W T evs).map Event.t ∧
    List.Chain' (fun x y => x ≤ y + W) ((buildQueue W T evs).map Event.t) ∧
    (∀ e x, x ∈ buildQueue W T evs → x.t = e.t →
      x ∈ (buildQueue W T evs).takeWhile (fun y => ! ltW W e y)) := by
  have hp := pairwise_buildQueue W T evs
  refine ⟨hp, drain_singles W _, ?_, ?_⟩
  · have h2 : List.Pairwise (fun x y : Event => x.t ≤ y.t + W)
        (buildQueue W T evs) := hp
    have h3 : (List.map Event.t (buildQueue W T evs)).Pairwise
        (fun x y => x ≤ y + W) := List.pairwise_map.mpr h2
    exact h3.chain'
  · intro e x hx ht
    exact ties_before_insert e hp x hx ht

/-- Witness for `c5_amended_monotone_up_to_window` at a concrete push
sequence, discharging the membership and equal-timestamp hypotheses of the
stable-ties conjunct. -/
theorem c5_amended_monotone_up_to_window_witness :
    (⟨1, 100⟩ : Event) ∈ (buildQueue 10 1000 [⟨1, 100⟩]).takeWhile
      (fun y => ! ltW 10 ⟨3, 100⟩ y) :=
  (c5_amended_monotone_up_to_window 10 1000 [⟨1, 100⟩]).2.2.2
    ⟨3, 100⟩ ⟨1, 100⟩ (by decide) (by decide)

/-- **C9** (confirmed): `FillDiagnostics` writes the bounded counter array
only in range: `n_singles[id]` is incremented exactly when
`0 ≤ id < Diagnostics::MAX_TYPES`; for any id outside that range the array
is left untouched, and an id `> 0` outside the range (i.e. `≥ MAX_TYPES`)
only triggers the warning. -/
theorem c9_fill_diagnostics_bounds (maxTypes qsize : Nat) (d : Diagnostics)
    (tdiff : Int) (hc : Bool) (id : Int) :
    (0 ≤ id → id < (maxTypes : Int) →
      (fillDiagnostics maxTypes qsize d tdiff hc id).1.n_singles
        = d.n_singles.set id.toNat (d.n_singles.getD id.toNat 0 + 1)) ∧
    (¬ (0 ≤ id ∧ id < (maxTypes : Int)) →
      (fillDiagnostics maxTypes qsize d tdiff hc id).1.n_singles
        = d.n_singles) ∧
    (0 < id → (maxTypes : Int) ≤ id →
      (fillDiagnostics maxTypes qsize d tdiff hc id).2 = true) := by
  refine ⟨?_, ?_, ?_⟩
  · intro h1 h2
    simp only [fillDiagnostics]
    rw [if_pos ⟨h1, h2⟩]
    cases hc <;> simp
  · intro h
    simp only [fillDiagnostics]
    rw [if_neg h]
    split
    · cases hc <;> simp
    · cases hc <;> simp
  · intro h1 h2
    simp only [fillDiagnostics]
    rw [if_neg (by omega), if_pos h1]

/-- Witness for `c9_fill_diagnostics_bounds`: with `MAX_TYPES = 5`, id 3
increments slot 3, id 7 leaves the array untouched and only warns. -/
theorem c9_fill_diagnostics_bounds_witness :
    (fillDiagnostics 5 2 ⟨0, 0, 0, [0, 0, 0, 0, 0]⟩ 0 true 3).1.n_singles
      = [0, 0, 0, 1, 0] ∧
    (fillDiagnostics 5 2 ⟨0, 0, 0, [0, 0, 0, 0, 0]⟩ 0 true 7).1.n_singles
      = [0, 0, 0, 0, 0] ∧
    (fillDiagnostics 5 2 ⟨0, 0, 0, [0, 0, 0, 0, 0]⟩ 0 true 7).2 = true := by
  refine ⟨?_, ?_, ?_⟩
  · rw [(c9_fill_diagnostics_bounds 5 2 ⟨0, 0, 0, [0, 0, 0, 0, 0]⟩ 0
      true 3).1 (by decide) (by decide)]
    decide
  · rw [(c9_fill_diagnostics_bounds 5 2 ⟨0, 0, 0, [0, 0, 0, 0, 0]⟩ 0
      true 7).2.1 (by decide)]
  · exact (c9_fill_diagnostics_bounds 5 2 ⟨0, 0, 0, [0, 0, 0, 0, 0]⟩ 0
      true 7).2.2 (by decide) (by decide)

/-- **C6** (code bug): `dragon::hion::Modules::unpack` decodes nothing —
its entire body is commented out in the source — so for *every* tail event
the module records keep exactly their reset values after
reset-then-unpack, and the FPGA trigger time is never copied in,
contradicting the spec's unpack contract. -/
theorem c6_hion_unpack_noop (m : HionModules) (e : MidasEvent) :
    HionModules.unpack m e = m ∧
    handleHion e m = HionModules.reset m ∧
    HionModules.tstamp (handleHion e m) = m.io32.tstamp :=
  ⟨rfl, rfl, rfl⟩

/-- **C7** (code bug): the event handler's scaler arms are `\todo` stubs —
on a head- or tail-scaler event, `Process` changes nothing at all: no
`count[i]` is overwritten, no `sum[i]` increased, no `rate[i]` set,
contradicting the spec's scaler-accumulator contract. -/
theorem c7_process_ignores_scalers (e : MidasEvent) (s : AnaState)
    (h : e.eid = DRAGON_HEAD_SCALER ∨ e.eid = DRAGON_TAIL_SCALER) :
    process e s = s := by
  rcases h with h | h <;>
    simp [process, h, DRAGON_HEAD_EVENT, DRAGON_TAIL_EVENT,
      DRAGON_HEAD_SCALER, DRAGON_TAIL_SCALER]

/-- Witness for `c7_process_ignores_scalers` at a concrete head-scaler
event carrying counts, against a freshly reset state. -/
theorem c7_process_ignores_scalers_witness :
    process ⟨2, none, none, none, none, [5, 4, 3], 100⟩ ana0 = ana0 :=
  c7_process_ignores_scalers ⟨2, none, none, none, none, [5, 4, 3], 100⟩
    ana0 (Or.inl rfl)

/-- **C10** (confirmed): for every event whose id is neither the
head-singles nor the tail-singles id, `Process` returns the state
unchanged: no detector record is modified and no histogram filled.  This
covers both the unrecognized ids (default arm) and the two scaler ids
(currently `\todo` stubs). -/
theorem c10_process_frame (e : MidasEvent) (s : AnaState)
    (h1 : e.eid ≠ DRAGON_HEAD_EVENT) (h2 : e.eid ≠ DRAGON_TAIL_EVENT) :
    process e s = s := by
  simp only [process, if_neg h1, if_neg h2]
  split
  · rfl
  · split <;> rfl

/-- Witness for `c10_process_frame` at a concrete unrecognized event id
(7, one of the emitted-only passthrough ids). -/
theorem c10_process_frame_witness :
    process ⟨7, none, none, none, none, [], 0⟩ ana0 = ana0 :=
  c10_process_frame ⟨7, none, none, none, none, [], 0⟩ ana0
    (by decide) (by decide)

end Analyzer
